import Mathlib

/-
Verification development for a 1-Wire DS2408 GPIO expander driver.
The driver exposes six one-byte device registers, a verified (debounced)
register read, a cached output byte with masked mutators, a control
register bitfield writer, and a background activity polling loop with
listener dispatch.  Every definition below is a shallow embedding of the
corresponding function of the driver source; machine integers are
modelled as Nat with explicit 32-bit wrapping where the JavaScript
bitwise operators apply.
-/

set_option maxHeartbeats 1000000

namespace DS2408

/-- The six named one-byte registers of the device. -/
inductive RegName
  | activity
  | cond_search_mask
  | cond_search_polarity
  | output
  | state
  | status_control
deriving DecidableEq

/--
Embeds writeDeviceFile: the payload written to a register file is one
byte; for the activity register it is always the zero byte regardless of
any supplied value, otherwise it is the supplied value reduced to a byte
(Buffer.fill coerces its numeric argument to an unsigned 8-bit value).
-/
def writeDeviceFile (filename : RegName) (value : Option Nat) : List Nat :=
  [if filename = RegName.activity then 0 else (value.getD 0) % 256]

/--
The JavaScript bitwise NOT of a 32-bit value, on the unsigned
reinterpretation of the result: flips the low 32 bits.
-/
def jsNot (m : Nat) : Nat := 4294967295 ^^^ m

/--
Embeds setBit: sets bit number bit of x to value, unless value is
undefined (modelled as none), in which case x is returned unchanged.
The clear case uses the 32-bit bitwise NOT as JavaScript does.
-/
def setBit (x : Nat) (bit : Nat) (value : Option Bool) : Nat :=
  match value with
  | none => x
  | some true => x ||| (1 <<< bit)
  | some false => x &&& jsNot (1 <<< bit)

/-- The four optional control flags accepted by setControls. -/
structure ControlFlags where
  PLS : Option Bool
  CT : Option Bool
  ROS : Option Bool
  PORL : Option Bool

/--
Embeds setControls: the base value is a fresh read of status_control
when read is true and the literal zero otherwise; bits 0 to 3 are then
set, cleared or left alone according to the PLS, CT, ROS and PORL flags.
The result is the byte handed to setControl.
-/
def setControls (f : ControlFlags) (read : Bool) (base : Nat) : Nat :=
  setBit (setBit (setBit (setBit (if read then base else 0) 0 f.PLS) 1 f.CT) 2 f.ROS) 3
    f.PORL

/-- Result kind of a setOutput call. -/
inductive Outcome
  | ok
  | rangeError
  | ioError
deriving DecidableEq

/--
Result of a setOutput call: the outcome, the cached output byte after
the call, and the byte sent to the output register when a device write
was attempted (none when validation failed before any write).
-/
structure SetOutputResult where
  outcome : Outcome
  cache : Nat
  written : Option Nat
deriving DecidableEq

/--
Embeds setOutput: values outside the range 0 to 255 throw a RangeError
before any device write and leave the cache unchanged; otherwise the
byte is written to the output register and the cache is updated to it
only after the write succeeds; a failed write leaves the cache unchanged
and propagates the error.  The writeOk flag models whether the
underlying register write succeeds.
-/
def setOutput (cache : Nat) (byte : Int) (writeOk : Bool) : SetOutputResult :=
  if byte < 0 ∨ 255 < byte then ⟨Outcome.rangeError, cache, none⟩
  else if writeOk then ⟨Outcome.ok, byte.toNat, some byte.toNat⟩
  else ⟨Outcome.ioError, cache, some byte.toNat⟩

/-- Embeds sinkOutputs: writes cache AND NOT mask through setOutput. -/
def sinkOutputs (cache : Nat) (mask : Nat) (writeOk : Bool) : SetOutputResult :=
  setOutput cache ((cache &&& jsNot mask : Nat) : Int) writeOk

/-- Embeds floatOutputs: writes cache OR mask through setOutput. -/
def floatOutputs (cache : Nat) (mask : Nat) (writeOk : Bool) : SetOutputResult :=
  setOutput cache ((cache ||| mask : Nat) : Int) writeOk

/--
Embeds maskedSetOutputs: writes (cache AND NOT mask) OR (value AND mask)
through setOutput.
-/
def maskedSetOutputs (cache : Nat) (mask : Nat) (value : Nat) (writeOk : Bool) :
    SetOutputResult :=
  setOutput cache (((cache &&& jsNot mask) ||| (value &&& mask) : Nat) : Int) writeOk

/--
The cached output byte set by the constructor before the seeding read of
the output register resolves (source line: this.outputs = 255).
-/
def initialOutputs : Nat := 255

/--
Embeds the verified-read loop of readDeviceFile after the first raw
read: i raw reads have happened so far, last is the most recently
observed value and m is the current consecutive-match count.  Each step
performs one further raw read (samples i); a match increments the count
and a mismatch resets it to zero and updates the last-observed value;
the loop exits as soon as the count reaches v, returning the stabilized
value together with the total number of raw reads performed.  The fuel
argument bounds the number of steps so the definition is total; the
source loop is unbounded.
-/
def readDeviceFileAux (v : Nat) (samples : Nat → Nat) :
    Nat → Nat → Nat → Nat → Option (Nat × Nat)
  | 0, _, _, _ => none
  | fuel + 1, i, last, m =>
    if samples i = last then
      if v ≤ m + 1 then some (last, i + 1)
      else readDeviceFileAux v samples fuel (i + 1) last (m + 1)
    else
      if v ≤ 0 then some (samples i, i + 1)
      else readDeviceFileAux v samples fuel (i + 1) (samples i) 0

/--
Embeds readDeviceFile: the verified read over the raw sample stream.
The first raw read always takes the mismatch branch (the last-observed
value starts undefined), setting the match count to zero; the do-while
loop then continues while the match count is below v.
-/
def readDeviceFile (v : Nat) (samples : Nat → Nat) (fuel : Nat) : Option (Nat × Nat) :=
  match fuel with
  | 0 => none
  | fuel + 1 =>
    if v ≤ 0 then some (samples 0, 1)
    else readDeviceFileAux v samples fuel 1 (samples 0) 0

/--
The sample stream has a run of v plus one consecutive identical samples
with value r ending right before position n (positions s to s plus v,
where n is s plus v plus one).
-/
def runEnd (v : Nat) (samples : Nat → Nat) (n : Nat) (r : Nat) : Prop :=
  ∃ s, s + v + 1 = n ∧ ∀ j, j ≤ v → samples (s + j) = r

/-- Result of one raw register read inside a polling iteration. -/
inductive ReadResult
  | ok (v : Nat)
  | err
deriving DecidableEq

/--
Environment of one polling iteration: the outcome of the verified
activity read, whether the activity-clearing write succeeds, and the
outcome of the verified state read.
-/
structure Env where
  activity : ReadResult
  clearOk : Bool
  state : ReadResult
deriving DecidableEq

/--
A registered activity listener: an identity for the callback, and
whether invoking it throws.
-/
structure Listener where
  id : Nat
  throws : Bool
deriving DecidableEq

/--
Embeds the forEach dispatch of updateActivity: each listener is invoked
in registration order with the activity and state bytes; a throwing
listener is still invoked but aborts dispatch to the remaining
listeners.  Returns the list of performed invocations (listener
identity, activity byte, state byte) and whether dispatch threw.
-/
def notifyAll (a s : Nat) : List Listener → List (Nat × Nat × Nat) × Bool
  | [] => ([], false)
  | l :: rest =>
    if l.throws then ([(l.id, a, s)], true)
    else
      let r := notifyAll a s rest
      ((l.id, a, s) :: r.1, r.2)

/--
Observable effects of one updateActivity call: whether the
activity-clearing write was issued, whether the state read was issued,
the listener invocations performed, and whether the call rejected.
-/
structure IterResult where
  clearIssued : Bool
  stateReadIssued : Bool
  notified : List (Nat × Nat × Nat)
  threw : Bool
deriving DecidableEq

/--
Embeds updateActivity: an error of the activity read is caught and
logged, leaving the activity value undefined; an undefined or zero
activity value returns early, before the clear and the state read.
Otherwise the latch clear is issued (its failure is caught and
swallowed, so Env.clearOk does not influence control flow), then the
state read runs: its failure rejects the call; finally the listeners
are dispatched, and a throwing listener rejects the call.
-/
def updateActivity (env : Env) (listeners : List Listener) : IterResult :=
  match env.activity with
  | ReadResult.err => ⟨false, false, [], false⟩
  | ReadResult.ok a =>
    if a = 0 then ⟨false, false, [], false⟩
    else
      match env.state with
      | ReadResult.err => ⟨true, true, [], true⟩
      | ReadResult.ok s =>
        let r := notifyAll a s listeners
        ⟨true, true, r.1, r.2⟩

/--
Embeds activityLoop: iteration k runs exactly when every earlier
iteration completed without updateActivity rejecting; a rejection is
caught, logged, and the loop is not rescheduled.  Iteration k, when it
runs, begins with a verified read of the activity register, so loopRuns
also states that an activity read is issued in cycle k.
-/
def loopRuns (envs : Nat → Env) (listeners : List Listener) : Nat → Bool
  | 0 => true
  | k + 1 => loopRuns envs listeners k && !(updateActivity (envs k) listeners).threw

/-- Embeds onActivity: a new listener is appended to the registry. -/
def onActivity (reg : List Listener) (l : Listener) : List Listener := reg ++ [l]

/--
Embeds the unregister closure returned by onActivity: indexOf locates
the first occurrence of the listener and splice removes that single
entry; when the listener is absent (index below zero) the registry is
returned unchanged.
-/
def unregister : List Listener → Listener → List Listener
  | [], _ => []
  | x :: xs, l => if x = l then xs else x :: unregister xs l

/-- A concrete environment stream whose activity read always fails. -/
def envsErr : Nat → Env := fun _ => ⟨ReadResult.err, true, ReadResult.err⟩

/-- A concrete environment stream with activity byte 1 and state byte 7. -/
def envsOk : Nat → Env := fun _ => ⟨ReadResult.ok 1, true, ReadResult.ok 7⟩

/-- A concrete environment stream whose activity read always returns zero. -/
def envsZero : Nat → Env := fun _ => ⟨ReadResult.ok 0, true, ReadResult.ok 7⟩

/--
Invariant-carrying correctness of the verified-read loop body: if the
samples s to s plus m form the current left-maximal run, the match count
is still below v, and no run of v plus one identical samples has
completed among the reads so far, then a successful result is the value
of the first run of v plus one consecutive identical samples, returned
exactly at the read completing that run.
-/
theorem rdfAux_correct (v : Nat) (samples : Nat → Nat) :
    ∀ fuel s m r n,
      (∀ j, j ≤ m → samples (s + j) = samples (s + m)) →
      (s = 0 ∨ samples (s - 1) ≠ samples (s + m)) →
      m + 1 ≤ v →
      (∀ k r2, k ≤ s + m + 1 → ¬ runEnd v samples k r2) →
      readDeviceFileAux v samples fuel (s + m + 1) (samples (s + m)) m = some (r, n) →
      r = samples (n - 1) ∧ runEnd v samples n r ∧ ∀ k r2, k < n → ¬ runEnd v samples k r2 := by
  intro fuel
  induction fuel with
  | zero =>
    intro s m r n _ _ _ _ h
    simp [readDeviceFileAux] at h
  | succ fuel ih =>
    intro s m r n hrun hmax hm hmin h
    simp only [readDeviceFileAux] at h
    by_cases hq : samples (s + m + 1) = samples (s + m)
    · rw [if_pos hq] at h
      by_cases hv : v ≤ m + 1
      · rw [if_pos hv] at h
        have hveq : v = m + 1 := Nat.le_antisymm hv hm
        simp only [Option.some.injEq, Prod.mk.injEq] at h
        obtain ⟨hr, hn⟩ := h
        subst hr
        subst hn
        refine ⟨hq.symm, ⟨s, by omega, ?_⟩, ?_⟩
        · intro j hj
          rcases Nat.eq_or_lt_of_le hj with hj1 | hj2
          · rw [hj1, hveq]
            exact hq
          · exact hrun j (by omega)
        · intro k r2 hk
          exact hmin k r2 (by omega)
      · rw [if_neg hv] at h
        rw [← hq] at h
        refine ih s (m + 1) r n ?_ ?_ (by omega) ?_ h
        · intro j hj
          rcases Nat.eq_or_lt_of_le hj with hj1 | hj2
          · rw [hj1]
          · exact (hrun j (by omega)).trans hq.symm
        · rcases hmax with h0 | hne
          · exact Or.inl h0
          · exact Or.inr fun hcon => hne (hcon.trans hq)
        · intro k r2 hk hre
          rcases Nat.lt_or_ge k (s + m + 2) with h1 | h2
          · exact hmin k r2 (by omega) hre
          · obtain ⟨s0, hs0, hall⟩ := hre
            rcases hmax with h0 | hne
            · omega
            · have e1 : samples (s - 1) = r2 := by
                have hx := hall (s - 1 - s0) (by omega)
                have e : s0 + (s - 1 - s0) = s - 1 := by omega
                rwa [e] at hx
              have e2 : samples (s + m) = r2 := by
                have hx := hall (s + m - s0) (by omega)
                have e : s0 + (s + m - s0) = s + m := by omega
                rwa [e] at hx
              exact hne (e1.trans e2.symm)
    · rw [if_neg hq] at h
      by_cases hv0 : v ≤ 0
      · exact absurd hm (by omega)
      · rw [if_neg hv0] at h
        refine ih (s + m + 1) 0 r n ?_ ?_ (by omega) ?_ h
        · intro j hj
          have hj0 : j = 0 := by omega
          subst hj0
          rfl
        · exact Or.inr fun hcon => hq hcon.symm
        · intro k r2 hk hre
          rcases Nat.lt_or_ge k (s + m + 2) with h1 | h2
          · exact hmin k r2 (by omega) hre
          · obtain ⟨s0, hs0, hall⟩ := hre
            have e1 : samples (s + m) = r2 := by
              have hx := hall (s + m - s0) (by omega)
              have e : s0 + (s + m - s0) = s + m := by omega
              rwa [e] at hx
            have e2 : samples (s + m + 1) = r2 := by
              have hx := hall (s + m + 1 - s0) (by omega)
              have e : s0 + (s + m + 1 - s0) = s + m + 1 := by omega
              rwa [e] at hx
            exact hq (e2.trans e1.symm)

/--
Correctness of the verified read: a successful result is the value of
the first run of v plus one consecutive identical raw samples, returned
exactly at the raw read completing that run, and no earlier point of the
stream completes such a run.
-/
theorem readDeviceFile_correct (v : Nat) (samples : Nat → Nat) (fuel r n : Nat) :
    readDeviceFile v samples fuel = some (r, n) →
    r = samples (n - 1) ∧ runEnd v samples n r ∧ ∀ k r2, k < n → ¬ runEnd v samples k r2 := by
  intro h
  match fuel with
  | 0 => simp [readDeviceFile] at h
  | fuel + 1 =>
    simp only [readDeviceFile] at h
    by_cases hv0 : v ≤ 0
    · rw [if_pos hv0] at h
      simp only [Option.some.injEq, Prod.mk.injEq] at h
      obtain ⟨hr, hn⟩ := h
      subst hr
      subst hn
      refine ⟨rfl, ⟨0, by omega, ?_⟩, ?_⟩
      · intro j hj
        have hj0 : j = 0 := by omega
        subst hj0
        rfl
      · rintro k r2 hk ⟨s0, hs0, -⟩
        omega
    · rw [if_neg hv0] at h
      refine rdfAux_correct v samples fuel 0 0 r n ?_ (Or.inl rfl) (by omega) ?_ h
      · intro j hj
        have hj0 : j = 0 := by omega
        subst hj0
        rfl
      · rintro k r2 hk ⟨s0, hs0, -⟩
        omega

/-- The 32-bit all-ones mask as a power of two minus one. -/
theorem mask32 : (4294967295 : Nat) = 2 ^ 32 - 1 := by norm_num

/-- Bit i of the 32-bit NOT of m is the flip of bit i of m below bit 32. -/
theorem jsNot_testBit (m i : Nat) :
    (jsNot m).testBit i = (decide (i < 32) ^^ m.testBit i) := by
  rw [jsNot, mask32, Nat.testBit_xor, Nat.testBit_two_pow_sub_one]

/-- setBit at bit b sets bit b to the supplied flag, defaulting to the old bit. -/
theorem setBit_testBit_self (x b : Nat) (v : Option Bool) (hb : b < 32) :
    (setBit x b v).testBit b = v.getD (x.testBit b) := by
  match v with
  | none => rfl
  | some true =>
    simp [setBit, Nat.testBit_or, Nat.one_shiftLeft, Nat.testBit_two_pow_self]
  | some false =>
    simp [setBit, Nat.testBit_and, jsNot_testBit, Nat.one_shiftLeft,
      Nat.testBit_two_pow_self, hb]

/-- setBit at bit b leaves every other bit below bit 32 unchanged. -/
theorem setBit_testBit_ne (x b i : Nat) (v : Option Bool) (hne : b ≠ i) (hi : i < 32) :
    (setBit x b v).testBit i = x.testBit i := by
  match v with
  | none => rfl
  | some true =>
    simp [setBit, Nat.testBit_or, Nat.one_shiftLeft, Nat.testBit_two_pow_of_ne hne]
  | some false =>
    simp [setBit, Nat.testBit_and, jsNot_testBit, Nat.one_shiftLeft,
      Nat.testBit_two_pow_of_ne hne, hi]

/-- setBit stays below a power of two containing both the value and the bit. -/
theorem setBit_lt (x b n : Nat) (v : Option Bool) (hx : x < 2 ^ n) (hb : b < n) :
    setBit x b v < 2 ^ n := by
  match v with
  | none => exact hx
  | some true =>
    exact Nat.or_lt_two_pow hx
      (by rw [Nat.one_shiftLeft]; exact Nat.pow_lt_pow_right (by norm_num) hb)
  | some false => exact Nat.lt_of_le_of_lt Nat.and_le_left hx

/-- The byte computed by setControls stays in byte range for a byte base. -/
theorem setControls_lt (f : ControlFlags) (read : Bool) (base : Nat) (hb : base < 256) :
    setControls f read base < 256 := by
  have hb0 : (if read then base else 0) < 2 ^ 8 := by
    split <;> omega
  have h := setBit_lt _ 3 8
    f.PORL (setBit_lt _ 2 8 f.ROS (setBit_lt _ 1 8 f.CT (setBit_lt _ 0 8 f.PLS hb0
      (by norm_num)) (by norm_num)) (by norm_num)) (by norm_num)
  simpa [setControls] using h

/-- Bit 0 of the setControls result is governed by the PLS flag. -/
theorem setControls_testBit0 (f : ControlFlags) (read : Bool) (base : Nat) :
    (setControls f read base).testBit 0
      = f.PLS.getD ((if read then base else 0).testBit 0) := by
  rw [setControls, setBit_testBit_ne _ 3 0 _ (by omega) (by omega),
    setBit_testBit_ne _ 2 0 _ (by omega) (by omega),
    setBit_testBit_ne _ 1 0 _ (by omega) (by omega),
    setBit_testBit_self _ 0 _ (by omega)]

/-- Bit 1 of the setControls result is governed by the CT flag. -/
theorem setControls_testBit1 (f : ControlFlags) (read : Bool) (base : Nat) :
    (setControls f read base).testBit 1
      = f.CT.getD ((if read then base else 0).testBit 1) := by
  rw [setControls, setBit_testBit_ne _ 3 1 _ (by omega) (by omega),
    setBit_testBit_ne _ 2 1 _ (by omega) (by omega),
    setBit_testBit_self _ 1 _ (by omega),
    setBit_testBit_ne _ 0 1 _ (by omega) (by omega)]

/-- Bit 2 of the setControls result is governed by the ROS flag. -/
theorem setControls_testBit2 (f : ControlFlags) (read : Bool) (base : Nat) :
    (setControls f read base).testBit 2
      = f.ROS.getD ((if read then base else 0).testBit 2) := by
  rw [setControls, setBit_testBit_ne _ 3 2 _ (by omega) (by omega),
    setBit_testBit_self _ 2 _ (by omega),
    setBit_testBit_ne _ 1 2 _ (by omega) (by omega),
    setBit_testBit_ne _ 0 2 _ (by omega) (by omega)]

/-- Bit 3 of the setControls result is governed by the PORL flag. -/
theorem setControls_testBit3 (f : ControlFlags) (read : Bool) (base : Nat) :
    (setControls f read base).testBit 3
      = f.PORL.getD ((if read then base else 0).testBit 3) := by
  rw [setControls, setBit_testBit_self _ 3 _ (by omega),
    setBit_testBit_ne _ 2 3 _ (by omega) (by omega),
    setBit_testBit_ne _ 1 3 _ (by omega) (by omega),
    setBit_testBit_ne _ 0 3 _ (by omega) (by omega)]

/-- All bits of the base value above bit 3 are preserved by setControls. -/
theorem setControls_testBit_high (f : ControlFlags) (read : Bool) (base : Nat)
    (hb : base < 256) :
    ∀ i, 4 ≤ i →
      (setControls f read base).testBit i = (if read then base else 0).testBit i := by
  intro i hi
  have hb0 : (if read then base else 0) < 2 ^ 32 := by
    split <;> omega
  by_cases hi32 : i < 32
  · rw [setControls, setBit_testBit_ne _ 3 i _ (by omega) hi32,
      setBit_testBit_ne _ 2 i _ (by omega) hi32,
      setBit_testBit_ne _ 1 i _ (by omega) hi32,
      setBit_testBit_ne _ 0 i _ (by omega) hi32]
  · have h32 : 32 ≤ i := by omega
    have hlt : setControls f read base < 2 ^ 32 := by
      have h := setBit_lt _ 3 32
        f.PORL (setBit_lt _ 2 32 f.ROS (setBit_lt _ 1 32 f.CT (setBit_lt _ 0 32 f.PLS hb0
          (by norm_num)) (by norm_num)) (by norm_num)) (by norm_num)
      simpa [setControls] using h
    rw [Nat.testBit_lt_two_pow
        (Nat.lt_of_lt_of_le hlt (Nat.pow_le_pow_right (by norm_num) h32)),
      Nat.testBit_lt_two_pow
        (Nat.lt_of_lt_of_le hb0 (Nat.pow_le_pow_right (by norm_num) h32))]

/-- Dispatch over non-throwing listeners notifies each one, in order. -/
theorem notifyAll_ok (a s : Nat) :
    ∀ ls : List Listener, (∀ x ∈ ls, x.throws = false) →
      notifyAll a s ls = (ls.map fun x => (x.id, a, s), false) := by
  intro ls
  induction ls with
  | nil => intro _; rfl
  | cons l rest ih =>
    intro h
    have hl : l.throws = false := h l (by simp)
    have hr := ih fun x hx => h x (by simp [hx])
    simp [notifyAll, hl, hr]

/--
Dispatch with a throwing listener notifies the preceding non-throwing
listeners and the throwing one, aborts the rest, and throws.
-/
theorem notifyAll_throw (a s : Nat) :
    ∀ (pre : List Listener) (l : Listener) (post : List Listener),
      (∀ x ∈ pre, x.throws = false) → l.throws = true →
      notifyAll a s (pre ++ l :: post)
        = ((pre ++ [l]).map fun x => (x.id, a, s), true) := by
  intro pre
  induction pre with
  | nil =>
    intro l post _ hl
    simp [notifyAll, hl]
  | cons p rest ih =>
    intro l post h hl
    have hp : p.throws = false := h p (by simp)
    have hr := ih l post (fun x hx => h x (by simp [hx])) hl
    simp [notifyAll, hp, hr]

/-- Removing an absent listener leaves the registry unchanged. -/
theorem unregister_not_mem :
    ∀ (reg : List Listener) (l : Listener), l ∉ reg → unregister reg l = reg := by
  intro reg
  induction reg with
  | nil => intro l _; rfl
  | cons x xs ih =>
    intro l h
    have hx : ¬ x = l := fun he => h (by simp [he])
    simp [unregister, hx, ih l fun hm => h (by simp [hm])]

/-- Removal drops exactly the first occurrence of the listener. -/
theorem unregister_append :
    ∀ (pre : List Listener) (l : Listener) (post : List Listener),
      l ∉ pre → unregister (pre ++ l :: post) l = pre ++ post := by
  intro pre
  induction pre with
  | nil =>
    intro l post _
    simp [unregister]
  | cons p rest ih =>
    intro l post h
    have hp : ¬ p = l := fun he => h (by simp [he])
    simp [unregister, hp, ih l post fun hm => h (by simp [hm])]

/-- updateActivity after a failed activity read: the error is swallowed and
nothing further happens in the iteration. -/
theorem updateActivity_err (env : Env) (listeners : List Listener)
    (ha : env.activity = ReadResult.err) :
    updateActivity env listeners = ⟨false, false, [], false⟩ := by
  unfold updateActivity
  rw [ha]

/-- updateActivity after a zero activity byte: the iteration returns before
the latch clear and the state read. -/
theorem updateActivity_zero (env : Env) (listeners : List Listener)
    (ha : env.activity = ReadResult.ok 0) :
    updateActivity env listeners = ⟨false, false, [], false⟩ := by
  unfold updateActivity
  rw [ha]
  rfl

/-- updateActivity with a nonzero activity byte and a successful state read
clears the latch, reads the state and dispatches the listeners. -/
theorem updateActivity_ok (env : Env) (listeners : List Listener) (a s : Nat)
    (ha : env.activity = ReadResult.ok a) (ha0 : a ≠ 0)
    (hs : env.state = ReadResult.ok s) :
    updateActivity env listeners
      = ⟨true, true, (notifyAll a s listeners).1, (notifyAll a s listeners).2⟩ := by
  unfold updateActivity
  rw [ha, hs]
  simp [ha0]

/-- One unfolding step of the polling loop scheduler. -/
theorem loopRuns_succ (envs : Nat → Env) (listeners : List Listener) (k : Nat) :
    loopRuns envs listeners (k + 1)
      = (loopRuns envs listeners k && !(updateActivity (envs k) listeners).threw) := rfl

/-- A successful setOutput of an in-range byte writes it and caches it. -/
theorem setOutput_ofNat_written (cache x : Nat) (hx : x < 256) :
    setOutput cache (x : Int) true = ⟨Outcome.ok, x, some x⟩ := by
  have hn : ¬((x : Int) < 0 ∨ (255 : Int) < (x : Int)) := by omega
  simp [setOutput, hn]
  omega

/--
Claim C3: For every sequence of raw register samples, the verified read
returns the first value that appears in verificationLoops plus one
consecutive identical samples, exactly at the raw read completing that
run, and no earlier prefix of the stream completes such a run; in
particular with verificationLoops two the constant stream of fives
yields five after exactly three raw reads, the stream five then sevens
yields seven after exactly four raw reads, and with verificationLoops
zero the first sample is returned after exactly one raw read.
-/
theorem C3_theorem :
    (∀ (v : Nat) (samples : Nat → Nat) (fuel r n : Nat),
        readDeviceFile v samples fuel = some (r, n) →
        r = samples (n - 1) ∧ runEnd v samples n r ∧
          ∀ k r2, k < n → ¬ runEnd v samples k r2) ∧
    readDeviceFile 2 (fun _ => 5) 100 = some (5, 3) ∧
    readDeviceFile 2 (fun i => if i = 0 then 5 else 7) 100 = some (7, 4) ∧
    ∀ (samples : Nat → Nat) (fuel : Nat),
      readDeviceFile 0 samples (fuel + 1) = some (samples 0, 1) := by
  refine ⟨readDeviceFile_correct, by decide, by decide, ?_⟩
  intro samples fuel
  simp [readDeviceFile]

/-- Witness for claim C3 at the constant stream of fives. -/
theorem C3_witness : runEnd 2 (fun _ => 5) 3 5 :=
  (C3_theorem.1 2 (fun _ => 5) 100 5 3 (by decide)).2.1

/--
Claim C4: setOutput validates its argument against the byte range before
any device write, failing with RangeError and leaving the cache
unchanged when the argument is out of range; an in-range byte is written
to the output register and cached only once the write succeeds, while a
failed write leaves the cache unchanged and propagates the error.
-/
theorem C4_theorem :
    ∀ (cache : Nat) (byte : Int),
      (∀ writeOk : Bool, (byte < 0 ∨ 255 < byte) →
        setOutput cache byte writeOk = ⟨Outcome.rangeError, cache, none⟩) ∧
      (0 ≤ byte → byte ≤ 255 →
        setOutput cache byte true = ⟨Outcome.ok, byte.toNat, some byte.toNat⟩) ∧
      (0 ≤ byte → byte ≤ 255 →
        setOutput cache byte false = ⟨Outcome.ioError, cache, some byte.toNat⟩) := by
  intro cache byte
  refine ⟨?_, ?_, ?_⟩
  · intro writeOk h
    simp only [setOutput]
    rw [if_pos h]
  · intro h1 h2
    have hn : ¬(byte < 0 ∨ 255 < byte) := by omega
    simp [setOutput, hn]
  · intro h1 h2
    have hn : ¬(byte < 0 ∨ 255 < byte) := by omega
    simp [setOutput, hn]

/-- Witness for claim C4 at the boundary inputs of the range check. -/
theorem C4_witness :
    setOutput 7 256 true = ⟨Outcome.rangeError, 7, none⟩ ∧
    setOutput 7 (-1) true = ⟨Outcome.rangeError, 7, none⟩ ∧
    setOutput 7 5 true = ⟨Outcome.ok, 5, some 5⟩ ∧
    setOutput 7 5 false = ⟨Outcome.ioError, 7, some 5⟩ :=
  ⟨(C4_theorem 7 256).1 true (by norm_num),
   (C4_theorem 7 (-1)).1 true (by norm_num),
   (C4_theorem 7 5).2.1 (by norm_num) (by norm_num),
   (C4_theorem 7 5).2.2 (by norm_num) (by norm_num)⟩

/--
Claim C5: for byte-ranged cache, mask and value, the derived mutators
write exactly the specified formulas through setOutput: sinkOutputs
writes cache AND NOT mask, floatOutputs writes cache OR mask, and
maskedSetOutputs writes cache AND NOT mask, OR value AND mask; the
concrete examples of the specification hold.
-/
theorem C5_theorem :
    ∀ (cache mask value : Nat), cache < 256 → mask < 256 → value < 256 →
      (sinkOutputs cache mask true).written = some (cache &&& jsNot mask) ∧
      (sinkOutputs cache mask true).cache = (cache &&& jsNot mask) ∧
      (floatOutputs cache mask true).written = some (cache ||| mask) ∧
      (maskedSetOutputs cache mask value true).written
        = some ((cache &&& jsNot mask) ||| (value &&& mask)) ∧
      (sinkOutputs 176 48 true).written = some 128 ∧
      (floatOutputs 128 15 true).written = some 143 ∧
      (maskedSetOutputs 128 12 4 true).written = some 132 := by
  intro cache mask value hc hm hv
  have h1 : cache &&& jsNot mask < 256 := Nat.lt_of_le_of_lt Nat.and_le_left hc
  have h2 : cache ||| mask < 256 := by
    have h := @Nat.or_lt_two_pow cache mask 8 (by omega) (by omega)
    omega
  have h3 : (cache &&& jsNot mask) ||| (value &&& mask) < 256 := by
    have h := @Nat.or_lt_two_pow (cache &&& jsNot mask) (value &&& mask) 8 (by omega)
      (Nat.lt_of_le_of_lt Nat.and_le_left (by omega))
    omega
  refine ⟨?_, ?_, ?_, ?_, by decide, by decide, by decide⟩
  · simp only [sinkOutputs]
    rw [setOutput_ofNat_written cache _ h1]
  · simp only [sinkOutputs]
    rw [setOutput_ofNat_written cache _ h1]
  · simp only [floatOutputs]
    rw [setOutput_ofNat_written cache _ h2]
  · simp only [maskedSetOutputs]
    rw [setOutput_ofNat_written cache _ h3]

/-- Witness for claim C5 at the concrete example bytes. -/
theorem C5_witness :
    (sinkOutputs 176 48 true).written = some 128 ∧
    (floatOutputs 128 15 true).written = some 143 := by
  have h := C5_theorem 176 48 0 (by norm_num) (by norm_num) (by norm_num)
  exact ⟨h.2.2.2.2.1, h.2.2.2.2.2.1⟩

/--
Claim C8: every write to the activity register sends a payload of
exactly one byte whose value is zero regardless of any supplied value,
and writes to the output and status_control registers send exactly one
byte holding the supplied byte value.
-/
theorem C8_theorem :
    ∀ (v : Option Nat) (w : Nat), w < 256 →
      writeDeviceFile RegName.activity v = [0] ∧
      (writeDeviceFile RegName.activity v).length = 1 ∧
      writeDeviceFile RegName.output (some w) = [w] ∧
      (writeDeviceFile RegName.output (some w)).length = 1 ∧
      writeDeviceFile RegName.status_control (some w) = [w] ∧
      (writeDeviceFile RegName.status_control (some w)).length = 1 := by
  intro v w hw
  have hmod : w % 256 = w := Nat.mod_eq_of_lt hw
  refine ⟨?_, ?_, ?_, ?_, ?_, ?_⟩ <;> simp [writeDeviceFile, hmod]

/-- Witness for claim C8: a supplied value for activity is ignored. -/
theorem C8_witness :
    writeDeviceFile RegName.activity (some 77) = [0] ∧
    writeDeviceFile RegName.output (some 5) = [5] := by
  have h := C8_theorem (some 77) 5 (by norm_num)
  exact ⟨h.1, h.2.2.1⟩

/--
Claim C10: the constructor initializes the cached output byte to 255
before the seeding verified read of the output register resolves, so a
masked mutator running against the fresh cache computes its new output
byte from the base 255 rather than from the hardware register.
-/
theorem C10_theorem :
    initialOutputs = 255 ∧
    ∀ (mask value : Nat), mask < 256 → value < 256 →
      (sinkOutputs initialOutputs mask true).written = some (255 &&& jsNot mask) ∧
      (floatOutputs initialOutputs mask true).written = some (255 ||| mask) ∧
      (maskedSetOutputs initialOutputs mask value true).written
        = some ((255 &&& jsNot mask) ||| (value &&& mask)) := by
  refine ⟨rfl, ?_⟩
  intro mask value hm hv
  have h1 : 255 &&& jsNot mask < 256 := Nat.lt_of_le_of_lt Nat.and_le_left (by norm_num)
  have h2 : 255 ||| mask < 256 := by
    have h := @Nat.or_lt_two_pow 255 mask 8 (by omega) (by omega)
    omega
  have h3 : (255 &&& jsNot mask) ||| (value &&& mask) < 256 := by
    have h := @Nat.or_lt_two_pow (255 &&& jsNot mask) (value &&& mask) 8 (by omega)
      (Nat.lt_of_le_of_lt Nat.and_le_left (by omega))
    omega
  refine ⟨?_, ?_, ?_⟩
  · simp only [sinkOutputs, initialOutputs]
    rw [setOutput_ofNat_written 255 _ h1]
  · simp only [floatOutputs, initialOutputs]
    rw [setOutput_ofNat_written 255 _ h2]
  · simp only [maskedSetOutputs, initialOutputs]
    rw [setOutput_ofNat_written 255 _ h3]

/-- Witness for claim C10 at a concrete mask. -/
theorem C10_witness :
    (sinkOutputs initialOutputs 48 true).written = some (255 &&& jsNot 48) := by
  have h := C10_theorem.2 48 0 (by norm_num) (by norm_num)
  exact h.1

/--
Claim C6: setControls builds its byte from a base value (a fresh read of
status_control when readFirst is true, zero otherwise); bits 0 to 3 are
set by a true flag, cleared by a false flag, and left as in the base
value when the flag is omitted, while every other bit of the base value
is preserved; the result is the single byte written to status_control;
in particular PLS true and CT false against base 8 write the byte 9.
-/
theorem C6_theorem :
    ∀ (f : ControlFlags) (read : Bool) (base : Nat), base < 256 →
      ((setControls f read base).testBit 0
          = f.PLS.getD ((if read then base else 0).testBit 0)) ∧
      ((setControls f read base).testBit 1
          = f.CT.getD ((if read then base else 0).testBit 1)) ∧
      ((setControls f read base).testBit 2
          = f.ROS.getD ((if read then base else 0).testBit 2)) ∧
      ((setControls f read base).testBit 3
          = f.PORL.getD ((if read then base else 0).testBit 3)) ∧
      (∀ i, 4 ≤ i →
        (setControls f read base).testBit i = (if read then base else 0).testBit i) ∧
      writeDeviceFile RegName.status_control (some (setControls f read base))
        = [setControls f read base] ∧
      setControls ⟨some true, some false, none, none⟩ true 8 = 9 := by
  intro f read base hb
  refine ⟨setControls_testBit0 f read base, setControls_testBit1 f read base,
    setControls_testBit2 f read base, setControls_testBit3 f read base,
    setControls_testBit_high f read base hb, ?_, by decide⟩
  have h := setControls_lt f read base hb
  simp [writeDeviceFile, Nat.mod_eq_of_lt h]

/-- Witness for claim C6 at the concrete example of the specification. -/
theorem C6_witness :
    (setControls ⟨some true, some false, none, none⟩ true 8).testBit 0 = true ∧
    setControls ⟨some true, some false, none, none⟩ true 8 = 9 := by
  have h := C6_theorem ⟨some true, some false, none, none⟩ true 8 (by norm_num)
  exact ⟨by simpa using h.1, h.2.2.2.2.2.2⟩

/--
Claim C1 as stated is false on the code: with an environment stream
whose activity read always fails, the loop does not stop after the
failing cycle; iteration one still runs and issues its own activity
read.
-/
theorem C1_counterexample :
    (envsErr 0).activity = ReadResult.err ∧ loopRuns envsErr [] 1 = true :=
  ⟨rfl, rfl⟩

/--
Claim C1, amended: when the activity read of a running cycle fails, that
cycle issues no latch clear, no state read and no listener notification,
the error is swallowed, and the loop reschedules: the next cycle still
runs (so the loop is not fail-stop on activity read errors).
-/
theorem C1_theorem :
    ∀ (envs : Nat → Env) (listeners : List Listener) (k : Nat),
      loopRuns envs listeners k = true →
      (envs k).activity = ReadResult.err →
      (updateActivity (envs k) listeners).stateReadIssued = false ∧
      (updateActivity (envs k) listeners).clearIssued = false ∧
      (updateActivity (envs k) listeners).notified = [] ∧
      loopRuns envs listeners (k + 1) = true := by
  intro envs listeners k hrun ha
  have h := updateActivity_err (envs k) listeners ha
  refine ⟨by rw [h], by rw [h], by rw [h], ?_⟩
  rw [loopRuns_succ, hrun, h]
  rfl

/-- Witness for claim C1 at the always-failing environment stream. -/
theorem C1_witness :
    (updateActivity (envsErr 0) []).stateReadIssued = false ∧
    loopRuns envsErr [] 2 = true := by
  have h := C1_theorem envsErr [] 1 rfl rfl
  exact ⟨(C1_theorem envsErr [] 0 rfl rfl).1, h.2.2.2⟩

/--
Claim C2 as stated is false on the code: with a cycle whose activity
read succeeds with a nonzero byte and whose state read succeeds, a
throwing listener stops the loop; the next iteration is not scheduled.
-/
theorem C2_counterexample :
    (envsOk 0).activity = ReadResult.ok 1 ∧ loopRuns envsOk [⟨0, true⟩] 1 = false :=
  ⟨rfl, rfl⟩

/--
Claim C2, amended: in a cycle with a successful nonzero activity read
and a successful state read, when every listener returns normally the
loop reschedules, and when a listener throws it aborts notification of
the remaining listeners and also stops the loop: the next iteration is
not scheduled.
-/
theorem C2_theorem :
    ∀ (envs : Nat → Env) (listeners : List Listener) (k a s : Nat),
      loopRuns envs listeners k = true →
      (envs k).activity = ReadResult.ok a → a ≠ 0 →
      (envs k).state = ReadResult.ok s →
      ((∀ x ∈ listeners, x.throws = false) →
        (updateActivity (envs k) listeners).notified
            = (listeners.map fun x => (x.id, a, s)) ∧
        loopRuns envs listeners (k + 1) = true) ∧
      (∀ (pre : List Listener) (l : Listener) (post : List Listener),
        listeners = pre ++ l :: post → (∀ x ∈ pre, x.throws = false) →
        l.throws = true →
        (updateActivity (envs k) listeners).notified
            = ((pre ++ [l]).map fun x => (x.id, a, s)) ∧
        loopRuns envs listeners (k + 1) = false) := by
  intro envs listeners k a s hrun ha ha0 hs
  have hupd := updateActivity_ok (envs k) listeners a s ha ha0 hs
  constructor
  · intro hok
    have hn := notifyAll_ok a s listeners hok
    refine ⟨?_, ?_⟩
    · rw [hupd, hn]
    · rw [loopRuns_succ, hrun, hupd, hn]
      rfl
  · intro pre l post hsplit hpre hl
    subst hsplit
    have hn := notifyAll_throw a s pre l post hpre hl
    refine ⟨?_, ?_⟩
    · rw [hupd, hn]
    · rw [loopRuns_succ, hrun, hupd, hn]
      rfl

/-- Witness for claim C2 at a single throwing listener. -/
theorem C2_witness :
    (updateActivity (envsOk 0) [⟨0, true⟩]).notified = [(0, 1, 7)] ∧
    loopRuns envsOk [⟨0, true⟩] 1 = false := by
  have h := (C2_theorem envsOk [⟨0, true⟩] 0 1 7 rfl rfl (by decide) rfl).2
    [] ⟨0, true⟩ [] rfl (by simp) rfl
  exact ⟨by simpa using h.1, h.2⟩

/--
Claim C7 as stated is false on the code: a cycle whose activity read
returns the zero byte returns before the latch clear, so no clear is
issued that cycle.
-/
theorem C7_counterexample :
    (envsZero 0).activity = ReadResult.ok 0 ∧
    (updateActivity (envsZero 0) [⟨0, false⟩]).clearIssued = false :=
  ⟨rfl, rfl⟩

/--
Claim C7, amended: in a running cycle whose verified activity read
returns the zero byte, no listener is notified, and the cycle issues
neither the latch clear nor the state read, but the loop still
reschedules the next iteration.
-/
theorem C7_theorem :
    ∀ (envs : Nat → Env) (listeners : List Listener) (k : Nat),
      loopRuns envs listeners k = true →
      (envs k).activity = ReadResult.ok 0 →
      (updateActivity (envs k) listeners).notified = [] ∧
      (updateActivity (envs k) listeners).clearIssued = false ∧
      (updateActivity (envs k) listeners).stateReadIssued = false ∧
      loopRuns envs listeners (k + 1) = true := by
  intro envs listeners k hrun ha
  have h := updateActivity_zero (envs k) listeners ha
  refine ⟨by rw [h], by rw [h], by rw [h], ?_⟩
  rw [loopRuns_succ, hrun, h]
  rfl

/-- Witness for claim C7 at the zero-activity environment stream. -/
theorem C7_witness :
    (updateActivity (envsZero 0) []).notified = [] ∧
    loopRuns envsZero [] 1 = true := by
  have h := C7_theorem envsZero [] 0 rfl rfl
  exact ⟨h.1, h.2.2.2⟩

/--
Claim C9: the listener registry notifies in insertion order, onActivity
appends, the unregister closure removes exactly the first occurrence of
its listener and is a no-op when the listener is already removed; after
registering two listeners and unregistering the first, one activity
cycle invokes only the second listener, exactly once, with the activity
and state pair of that iteration.
-/
theorem C9_theorem :
    (∀ (reg : List Listener) (l : Listener), l ∉ reg → unregister reg l = reg) ∧
    (∀ (pre post : List Listener) (l : Listener), l ∉ pre →
        unregister (pre ++ l :: post) l = pre ++ post) ∧
    (∀ (reg : List Listener) (l : Listener), onActivity reg l = reg ++ [l]) ∧
    (∀ (env : Env) (listeners : List Listener) (a s : Nat),
        env.activity = ReadResult.ok a → a ≠ 0 → env.state = ReadResult.ok s →
        (∀ x ∈ listeners, x.throws = false) →
        (updateActivity env listeners).notified = (listeners.map fun x => (x.id, a, s))) ∧
    unregister (onActivity (onActivity [] ⟨1, false⟩) ⟨2, false⟩) ⟨1, false⟩
        = [⟨2, false⟩] ∧
    (updateActivity ⟨ReadResult.ok 3, true, ReadResult.ok 9⟩
        (unregister (onActivity (onActivity [] ⟨1, false⟩) ⟨2, false⟩) ⟨1, false⟩)).notified
      = [(2, 3, 9)] := by
  refine ⟨unregister_not_mem, fun pre post l h => unregister_append pre l post h,
    fun reg l => rfl, ?_, by decide, by decide⟩
  intro env listeners a s ha ha0 hs hok
  rw [updateActivity_ok env listeners a s ha ha0 hs, notifyAll_ok a s listeners hok]

/-- Witness for claim C9: removing an absent listener is a no-op. -/
theorem C9_witness :
    unregister [⟨5, false⟩] ⟨7, false⟩ = [⟨5, false⟩] :=
  C9_theorem.1 [⟨5, false⟩] ⟨7, false⟩ (by decide)

end DS2408
